import Mathlib

/-!
Shallow embedding of the leave / attendance / messaging backend
(`src/mongodb.py`, `src/main.py`) and verification of its specification.

Conventions of the embedding:
* MongoDB collections become Lean lists in insertion order; `find_one(q)`
  becomes `List.find?` (first match in natural order), `update_one(q, $set)`
  becomes an update of the first matching element, `insert_one` appends,
  `$push` appends to a list-valued field.
* Python ints are `ℤ` (document ids, balances), strings are `String`.
* A Python dict key that may be absent is an `Option` field; for the
  attendance payload, whose call sites distinguish "key absent" from
  "key present with value None", the field is `Option (Option String)`
  (outer layer: key presence, inner layer: the possibly-None value).
* Wall-clock timestamps (`datetime.now().isoformat()`) are threaded as an
  explicit `now : String` argument (the injected clock of spec section 6).
-/

namespace Backend

/-- The `leave_balances` subdocument of a user.  Each field is optional
because MongoDB dotted-path `$set`s (`leave_balances.pl`) can create a
subdocument holding only some of the three keys; reads in the source use
`.get(leave_type, 0)`. -/
structure LeaveBalances where
  pl : Option ℤ
  cl : Option ℤ
  sl : Option ℤ
deriving DecidableEq

/-- An entry of a user's `leave_history` array.  `old_balances` and
`new_balances` are present only on rollover records. -/
structure LeaveEvent where
  date : String
  type : String
  action : String
  timestamp : String
  old_balances : Option LeaveBalances
  new_balances : Option LeaveBalances
deriving DecidableEq

/-- A document of the `users` collection (fields irrelevant to the claims,
such as email and password, are omitted). -/
structure User where
  id : ℤ
  role : String
  full_name : String
  leave_balances : Option LeaveBalances
  leave_history : List LeaveEvent
deriving DecidableEq

/-- A document of the `attendance` collection.  A stored document may lack
the `notes`/`in_time`/`out_time` keys; every read of those keys in the
source is `None`-defaulting (`.get`), so "key absent" and "key = None"
are indistinguishable and both are modelled as `none`. -/
structure AttendanceRecord where
  id : ℤ
  user_id : ℤ
  date : String
  status : String
  notes : Option String
  in_time : Option String
  out_time : Option String
deriving DecidableEq

/-- A document of the `messages` collection. -/
structure Message where
  id : ℤ
  sender_id : ℤ
  receiver_id : ℤ
  content : String
  type : String
  timestamp : String
deriving DecidableEq

/-- A document of the `notifications` collection (both schema variants in
the source appear: `is_read` and `status`). -/
structure Notification where
  id : ℤ
  user_id : ℤ
  type : String
  content : String
  reference_id : Option ℤ
  is_read : Option Bool
  status : Option String
  timestamp : String
deriving DecidableEq

/-- The persistent store: the collections touched by the verified claims. -/
structure DB where
  users : List User
  attendance : List AttendanceRecord
  messages : List Message
  notifications : List Notification
deriving DecidableEq

/-- `update_one(filter, $set)`: rewrite the first element satisfying `p`
with `f`, leave everything else in place. -/
def updFirst (p : α → Bool) (f : α → α) : List α → List α
  | [] => []
  | x :: xs => if p x then f x :: xs else x :: updFirst p f xs

/-- Python `str.lower()` (ASCII case mapping, the only case the source
exercises). -/
def pyLower (s : String) : String :=
  String.mk (s.data.map Char.toLower)

/-- Python `str.upper()` (ASCII case mapping). -/
def pyUpper (s : String) : String :=
  String.mk (s.data.map Char.toUpper)

/-- `find_one({}, sort=[("id", -1)])` followed by `max_id = last["id"] if
last else 0`: the maximal id of the collection, `0` when it is empty. -/
def mongo_max_id (l : List ℤ) : ℤ :=
  match l with
  | [] => 0
  | x :: xs => xs.foldl max x

/-- Balance lookup `balances.get(leave_type, 0)` for a (lower-cased)
leave-type key. -/
def LeaveBalances.getS (lb : LeaveBalances) (t : String) : ℤ :=
  if t == "pl" then lb.pl.getD 0
  else if t == "cl" then lb.cl.getD 0
  else if t == "sl" then lb.sl.getD 0
  else 0

/-- Dotted-path `$set {leave_balances.t: v}` on the subdocument.  All call
sites guard `t ∈ {pl, cl, sl}` first; other keys are never written. -/
def LeaveBalances.setS (lb : LeaveBalances) (t : String) (v : ℤ) : LeaveBalances :=
  if t == "pl" then { lb with pl := some v }
  else if t == "cl" then { lb with cl := some v }
  else if t == "sl" then { lb with sl := some v }
  else lb

/-- The default allocation `{"pl": 18, "cl": 7, "sl": 7}`. -/
def defaultBalances : LeaveBalances := ⟨some 18, some 7, some 7⟩

/-- The empty `leave_balances` subdocument created when a dotted-path
`$set` hits a user document that lacks the field. -/
def emptyBalances : LeaveBalances := ⟨none, none, none⟩

/-- `users_collection.update_one({"id": uid}, ...)`. -/
def DB.updateUser (db : DB) (uid : ℤ) (f : User → User) : DB :=
  { db with users := updFirst (fun u => u.id == uid) f db.users }

/-- The exceptions raised by the leave-ledger methods.
`keyErrorLeaveBalances` is the Python `KeyError` raised by the bare
subscript `user["leave_balances"]` in `cancel_leave`. -/
inductive LeaveErr where
  | userNotFound
  | invalidLeaveType
  | insufficientBalance (t : String)
  | keyErrorLeaveBalances
deriving DecidableEq

/-- The `str(e)` text of each leave-ledger exception, as interpolated into
API error messages by `main.py`. -/
def LeaveErr.msg : LeaveErr → String
  | .userNotFound => "User not found"
  | .invalidLeaveType => "Invalid leave type"
  | .insufficientBalance t => "Insufficient " ++ pyUpper t ++ " balance"
  | .keyErrorLeaveBalances => "\x27leave_balances\x27"

/-- The success payload of `apply_leave` / `cancel_leave`. -/
structure LeaveOk where
  new_balance : ℤ
  leave_type : String
deriving DecidableEq

/-- `MongoDBManager.get_user_leave_balances` (src/mongodb.py:849-863):
returns the balances, lazily backfilling (and persisting) the full default
subdocument when the user document lacks the field. -/
def get_user_leave_balances (db : DB) (uid : ℤ) : Option LeaveBalances × DB :=
  match db.users.find? (fun u => u.id == uid) with
  | none => (none, db)
  | some u =>
    match u.leave_balances with
    | none =>
      (some defaultBalances,
       db.updateUser uid (fun v => { v with leave_balances := some defaultBalances }))
    | some lb => (some lb, db)

/-- `MongoDBManager.apply_leave` (src/mongodb.py:865-911).  The missing
`leave_balances` field is defaulted in memory only; the persistent write is
the dotted-path `$set` of the single decremented key, followed by a
`$push` of the history record. -/
def apply_leave (db : DB) (user_id : ℤ) (leave_type : String) (date now : String) :
    Except LeaveErr (LeaveOk × DB) :=
  match db.users.find? (fun u => u.id == user_id) with
  | none => .error .userNotFound
  | some user =>
    let lbMem := user.leave_balances.getD defaultBalances
    let lt := pyLower leave_type
    if !(lt == "pl" || lt == "cl" || lt == "sl") then .error .invalidLeaveType
    else
      let current := lbMem.getS lt
      if current ≤ 0 then .error (.insufficientBalance lt)
      else
        let nb := current - 1
        let db1 := db.updateUser user_id (fun u =>
          { u with leave_balances := some ((u.leave_balances.getD emptyBalances).setS lt nb) })
        let ev : LeaveEvent :=
          { date := date, type := lt, action := "applied", timestamp := now,
            old_balances := none, new_balances := none }
        let db2 := db1.updateUser user_id (fun u =>
          { u with leave_history := u.leave_history ++ [ev] })
        .ok ({ new_balance := nb, leave_type := pyUpper lt }, db2)

/-- `MongoDBManager.cancel_leave` (src/mongodb.py:913-953).  Unlike
`apply_leave` it reads `user["leave_balances"]` with a bare subscript: a
user document without the field raises `KeyError`. -/
def cancel_leave (db : DB) (user_id : ℤ) (leave_type : String) (date now : String) :
    Except LeaveErr (LeaveOk × DB) :=
  match db.users.find? (fun u => u.id == user_id) with
  | none => .error .userNotFound
  | some user =>
    let lt := pyLower leave_type
    if !(lt == "pl" || lt == "cl" || lt == "sl") then .error .invalidLeaveType
    else
      match user.leave_balances with
      | none => .error .keyErrorLeaveBalances
      | some lb =>
        let current := lb.getS lt
        let nb := current + 1
        let db1 := db.updateUser user_id (fun u =>
          { u with leave_balances := some ((u.leave_balances.getD emptyBalances).setS lt nb) })
        let ev : LeaveEvent :=
          { date := date, type := lt, action := "cancelled", timestamp := now,
            old_balances := none, new_balances := none }
        let db2 := db1.updateUser user_id (fun u =>
          { u with leave_history := u.leave_history ++ [ev] })
        .ok ({ new_balance := nb, leave_type := pyUpper lt }, db2)

/-- The new balances computed by the rollover loop body for the snapshot
balances `cur`: `pl = 18 + cur.pl`, `cl = 7 + cur.cl`, `sl = 7`. -/
def rolloverBalances (cur : LeaveBalances) : LeaveBalances :=
  ⟨some (18 + cur.pl.getD 0), some (7 + cur.cl.getD 0), some 7⟩

/-- One iteration of the rollover loop (src/mongodb.py:961-991) for the
snapshot document `snap`: two `update_one`s keyed on `snap.id` — a full
replace of `leave_balances`, then a `$push` of the rollover record built
from the snapshot's balances. -/
def rolloverStep (year : ℤ) (now : String) (acc : DB) (snap : User) : DB :=
  let cur := snap.leave_balances.getD defaultBalances
  let nb := rolloverBalances cur
  let acc1 := acc.updateUser snap.id (fun u => { u with leave_balances := some nb })
  let ev : LeaveEvent :=
    { date := toString year ++ "-12-31", type := "rollover", action := "year_end",
      timestamp := now, old_balances := some cur, new_balances := some nb }
  acc1.updateUser snap.id (fun u => { u with leave_history := u.leave_history ++ [ev] })

/-- `MongoDBManager.process_year_end_rollover` (src/mongodb.py:955-1001):
iterates over a snapshot of all documents with `role == "user"`, applies
`rolloverStep` for each, and returns the processed count. -/
def process_year_end_rollover (db : DB) (year : ℤ) (now : String) : ℕ × DB :=
  let snapshot := db.users.filter (fun u => u.role == "user")
  (snapshot.length, snapshot.foldl (rolloverStep year now) db)

/-- `n` consecutive `apply_leave` calls with the same arguments; `none` as
soon as one of them raises. -/
def apply_leave_iter (uid : ℤ) (t date now : String) : ℕ → DB → Option DB
  | 0, db => some db
  | n + 1, db =>
    match apply_leave db uid t date now with
    | .ok (_, db1) => apply_leave_iter uid t date now n db1
    | .error _ => none

/-- `n` consecutive `cancel_leave` calls with the same arguments; `none` as
soon as one of them raises. -/
def cancel_leave_iter (uid : ℤ) (t date now : String) : ℕ → DB → Option DB
  | 0, db => some db
  | n + 1, db =>
    match cancel_leave db uid t date now with
    | .ok (_, db1) => cancel_leave_iter uid t date now n db1
    | .error _ => none

/-! ### Calendar arithmetic (Python `datetime`)

`datetime.strptime(date, "%Y-%m-%d")` and `datetime.weekday()` over the
proleptic Gregorian calendar, as used by `create_attendance`
(src/main.py:515-519). -/

/-- Gregorian leap-year test (`datetime._is_leap`). -/
def isLeap (y : ℕ) : Bool :=
  (y % 4 == 0 && y % 100 != 0) || y % 400 == 0

/-- `datetime`: number of days in month `m` of year `y` (`m` is guarded to
`1..12` by the callers). -/
def days_in_month (y m : ℕ) : ℕ :=
  match m with
  | 1 => 31
  | 2 => if isLeap y then 29 else 28
  | 3 => 31
  | 4 => 30
  | 5 => 31
  | 6 => 30
  | 7 => 31
  | 8 => 31
  | 9 => 30
  | 10 => 31
  | 11 => 30
  | 12 => 31
  | _ => 0

/-- `datetime._days_before_month`: days in year `y` preceding month `m`. -/
def days_before_month (y m : ℕ) : ℕ :=
  (match m with
   | 1 => 0
   | 2 => 31
   | 3 => 59
   | 4 => 90
   | 5 => 120
   | 6 => 151
   | 7 => 181
   | 8 => 212
   | 9 => 243
   | 10 => 273
   | 11 => 304
   | _ => 334) + (if 2 < m && isLeap y then 1 else 0)

/-- `datetime._days_before_year`: days before January 1 of year `y`
(ordinal of `y`-01-01 minus one). -/
def days_before_year (y : ℕ) : ℕ :=
  let n := y - 1
  n * 365 + n / 4 - n / 100 + n / 400

/-- `datetime.date.toordinal`: proleptic Gregorian ordinal, with
0001-01-01 as ordinal 1. -/
def toordinal (y m d : ℕ) : ℕ :=
  days_before_year y + days_before_month y m + d

/-- `datetime.date.weekday()`: Monday = 0 … Sunday = 6 (0001-01-01 is a
Monday). -/
def weekday (y m d : ℕ) : ℕ :=
  (toordinal y m d + 6) % 7

/-- Split a character list at every `-`, the semantics of Python
`"..".split("-")` restricted to what `%Y-%m-%d` matching needs. -/
def splitDash : List Char → List (List Char)
  | [] => [[]]
  | c :: rest =>
    let r := splitDash rest
    if c == '-' then [] :: r
    else
      match r with
      | [] => [[c]]
      | h :: t => (c :: h) :: t

/-- Decimal value of a digit list. -/
def digitsVal (cs : List Char) : ℕ :=
  cs.foldl (fun n c => 10 * n + (c.toNat - 48)) 0

/-- The `%Y` field of `strptime`: exactly four ASCII digits. -/
def yearVal (cs : List Char) : Option ℕ :=
  if cs.length == 4 && cs.all Char.isDigit then some (digitsVal cs) else none

/-- The `%m` field of `strptime`: one or two digits; the value range
`1..12` of the CPython pattern is checked by the caller. -/
def monthVal (cs : List Char) : Option ℕ :=
  if (cs.length == 1 || cs.length == 2) && cs.all Char.isDigit then some (digitsVal cs)
  else none

/-- The `%d` field of `strptime`: one or two digits, or a space-padded
digit.  Out-of-range values are rejected by the caller (either by the
CPython pattern or by the `datetime` constructor — both surface as the
same parse failure). -/
def dayVal (cs : List Char) : Option ℕ :=
  if (cs.length == 1 || cs.length == 2) && cs.all Char.isDigit then some (digitsVal cs)
  else
    match cs with
    | [' ', c] => if c.isDigit then some (c.toNat - 48) else none
    | _ => none

/-- `datetime.strptime(s, "%Y-%m-%d")` followed by construction of the
`datetime` object: `some (y, m, d)` on success, `none` on any
`ValueError` (malformed text, month outside `1..12`, day outside the
month, year 0). -/
def parseDate (s : String) : Option (ℕ × ℕ × ℕ) :=
  match splitDash s.data with
  | [ys, ms, ds] =>
    match yearVal ys, monthVal ms, dayVal ds with
    | some y, some m, some d =>
      if 1 ≤ y && 1 ≤ m && m ≤ 12 && 1 ≤ d && d ≤ days_in_month y m then
        some (y, m, d)
      else none
    | _, _, _ => none
  | _ => none

/-! ### Attendance operations -/

/-- The dict built by `create_attendance` and passed to `add_attendance`.
`in_time`/`out_time` are doubly optional: the outer `Option` is key
presence in the dict (`attendance_data.get(k, default)` falls back only
when the key is absent), the inner one is the possibly-`None` value. -/
structure AttData where
  user_id : ℤ
  status : String
  date : String
  notes : Option String
  in_time : Option (Option String)
  out_time : Option (Option String)
deriving DecidableEq

/-- `status.upper() in ["PL", "CL", "SL"]`. -/
def isLeaveStatus (s : String) : Bool :=
  pyUpper s == "PL" || pyUpper s == "CL" || pyUpper s == "SL"

/-- `MongoDBManager.add_attendance` (src/mongodb.py:632-693).  Update
branch: when both the stored and the submitted status are leave codes and
differ, the old leave is cancelled best-effort (a raised exception is only
logged); then the four writable fields are `$set` on the record found by
id, with `in_time`/`out_time` falling back to the stored values only when
their key is absent from the dict.  Insert branch: a fresh id
`max id + 1` and an append.  The returned record is re-read from the
collection. -/
def add_attendance (db : DB) (ad : AttData) (now : String) :
    Option AttendanceRecord × DB :=
  match db.attendance.find? (fun r => r.user_id == ad.user_id && r.date == ad.date) with
  | some existing =>
    let db1 :=
      if isLeaveStatus existing.status && isLeaveStatus ad.status &&
         pyUpper existing.status != pyUpper ad.status then
        match cancel_leave db existing.user_id (pyUpper existing.status) existing.date now with
        | .ok (_, db') => db'
        | .error _ => db
      else db
    let db2 : DB :=
      { db1 with attendance := updFirst (fun r => r.id == existing.id) (fun r =>
          { r with status := ad.status, notes := ad.notes,
                   in_time := ad.in_time.getD existing.in_time,
                   out_time := ad.out_time.getD existing.out_time }) db1.attendance }
    (db2.attendance.find? (fun r => r.id == existing.id), db2)
  | none =>
    let newRec : AttendanceRecord :=
      { id := mongo_max_id (db.attendance.map (fun r => r.id)) + 1,
        user_id := ad.user_id, status := ad.status, date := ad.date,
        notes := ad.notes,
        in_time := ad.in_time.getD none, out_time := ad.out_time.getD none }
    (some newRec, { db with attendance := db.attendance ++ [newRec] })

/-- The request body of `POST /api/attendance` (`AttendanceRequest`,
src/main.py:62-68). -/
structure AttendanceRequest where
  user_id : ℤ
  status : String
  date : String
  notes : Option String
  in_time : Option String
  out_time : Option String
deriving DecidableEq

/-- An API handler outcome: `{"success": True, "record": ...}` or
`{"success": False, "message": ...}`. -/
inductive ApiResp where
  | ok (record : AttendanceRecord)
  | err (message : String)
deriving DecidableEq

/-- `create_attendance` (src/main.py:511-547): date parse and weekend
guards, leave application for PL/CL/SL statuses (aborting on ledger
failure), then the `add_attendance` upsert.  The dict passed to
`add_attendance` always carries the `notes`/`in_time`/`out_time` keys
(src/main.py:534-542).  The `none` record branch is unreachable (the
source would raise on it); its message is immaterial to every claim. -/
def create_attendance (db : DB) (req : AttendanceRequest) (now : String) : ApiResp × DB :=
  match parseDate req.date with
  | none => (.err "Invalid date format. Expected YYYY-MM-DD", db)
  | some (y, m, d) =>
    if 5 ≤ weekday y m d then (.err "Attendance cannot be marked on weekends", db)
    else
      let upsert := fun (db1 : DB) =>
        match add_attendance db1
            { user_id := req.user_id, status := req.status, date := req.date,
              notes := req.notes, in_time := some req.in_time,
              out_time := some req.out_time } now with
        | (some r, db2) => (ApiResp.ok r, db2)
        | (none, db2) => (ApiResp.err "internal error", db2)
      if isLeaveStatus req.status then
        match apply_leave db req.user_id (pyUpper req.status) req.date now with
        | .error e => (.err ("Leave application failed: " ++ e.msg), db)
        | .ok (_, db1) => upsert db1
      else upsert db

/-! ### Attendance statistics -/

/-- Python `round(x, 2)`: round half to even at the second decimal.  The
binary floating-point representation of the quotient is abstracted to the
exact rational. -/
def pyRound2 (x : ℚ) : ℚ :=
  let y := x * 100
  let f : ℤ := ⌊y⌋
  let r := y - f
  (if r < 1 / 2 then (f : ℚ)
   else if 1 / 2 < r then (f : ℚ) + 1
   else if f % 2 = 0 then (f : ℚ) else (f : ℚ) + 1) / 100

/-- The response of `GET /api/attendance/stats`. -/
structure StatsResp where
  present_days : ℕ
  absent_days : ℕ
  total_days : ℕ
  present_percentage : ℚ
  absent_percentage : ℚ
deriving DecidableEq

/-- `get_attendance_stats` (src/main.py:580-608), as a function of the
filtered record set.  Modelled from the spec: the record fetch
`mongodb.get_attendance_by_employee_code(employee_code, month, year)`
called at src/main.py:589 has no definition in src/mongodb.py; per spec
section 4.1 it yields the attendance records filtered by employee code,
month and year, which this function takes as its argument.  The statistics
arithmetic below is embedded from src/main.py:591-606. -/
def get_attendance_stats (records : List AttendanceRecord) : StatsResp :=
  let total := records.length
  let pres := (records.filter (fun r => r.status == "present")).length
  let absent := (records.filter (fun r => r.status == "absent")).length
  let pp : ℚ := if 0 < total then (pres : ℚ) / (total : ℚ) * 100 else 0
  let ap : ℚ := if 0 < total then (absent : ℚ) / (total : ℚ) * 100 else 0
  { present_days := pres, absent_days := absent, total_days := total,
    present_percentage := pyRound2 pp, absent_percentage := pyRound2 ap }

/-! ### Messages and notifications

`MongoDBManager` defines `add_message`, `get_messages` and
`add_notification` twice each; inside a Python class body the later
definition rebinds the name, so the later ones are the methods the class
actually has.  Both are embedded: the live one under the source name, the
shadowed one with a `_shadowed` suffix. -/

/-- The payload of an `add_message` call. -/
structure MsgData where
  sender_id : ℤ
  receiver_id : ℤ
  content : String
  type : String
  timestamp : Option String
deriving DecidableEq

/-- The payload of an `add_notification` call. -/
structure NotifData where
  user_id : ℤ
  type : String
  content : String
  reference_id : Option ℤ
  is_read : Option Bool
  status : Option String
  timestamp : Option String
deriving DecidableEq

/-- Python truthiness of `Option String`: `None` and `""` are falsy. -/
def strFalsy : Option String → Bool
  | none => true
  | some s => s == ""

/-- The effective `MongoDBManager.add_notification` (src/mongodb.py:
802-841; the later of the two definitions): fresh id, defaulted timestamp
and `status = "unread"` when those keys are falsy, then an insert. -/
def add_notification (db : DB) (nd : NotifData) (now : String) : Notification × DB :=
  let newId := mongo_max_id (db.notifications.map (fun n => n.id)) + 1
  let ts := if strFalsy nd.timestamp then now else nd.timestamp.getD now
  let st := if strFalsy nd.status then some "unread" else nd.status
  let notif : Notification :=
    { id := newId, user_id := nd.user_id, type := nd.type, content := nd.content,
      reference_id := nd.reference_id, is_read := nd.is_read, status := st,
      timestamp := ts }
  (notif, { db with notifications := db.notifications ++ [notif] })

/-- The effective `MongoDBManager.add_message` (src/mongodb.py:752-780;
the later of the two definitions, the one a method call resolves to):
fresh id, defaulted timestamp, insert — and no notification of any kind. -/
def add_message (db : DB) (md : MsgData) (now : String) : Message × DB :=
  let newId := mongo_max_id (db.messages.map (fun m => m.id)) + 1
  let ts := if strFalsy md.timestamp then now else md.timestamp.getD now
  let msg : Message :=
    { id := newId, sender_id := md.sender_id, receiver_id := md.receiver_id,
      content := md.content, type := md.type, timestamp := ts }
  (msg, { db with messages := db.messages ++ [msg] })

/-- The shadowed first `MongoDBManager.add_message` (src/mongodb.py:
415-455), dead code in the source: after inserting the message it creates
a notification for the receiver of type `"message"` whose `reference_id`
is the new message id (when the sender exists). -/
def add_message_shadowed (db : DB) (md : MsgData) (now : String) : Message × DB :=
  let newId := mongo_max_id (db.messages.map (fun m => m.id)) + 1
  let ts := if strFalsy md.timestamp then now else md.timestamp.getD now
  let msg : Message :=
    { id := newId, sender_id := md.sender_id, receiver_id := md.receiver_id,
      content := md.content, type := md.type, timestamp := ts }
  let db1 : DB := { db with messages := db.messages ++ [msg] }
  match db1.users.find? (fun u => u.id == md.sender_id) with
  | some sender =>
    let nd : NotifData :=
      { user_id := md.receiver_id, type := "message",
        content := "New message from " ++ sender.full_name,
        reference_id := some msg.id, is_read := some false, status := none,
        timestamp := some now }
    (msg, (add_notification db1 nd now).2)
  | none => (msg, db1)

/-! ### Helper lemmas: first-match surgery on lists -/

theorem updFirst_append (p : α → Bool) (f : α → α) (l₁ : List α) (z : α) (l₂ : List α)
    (h₁ : ∀ y ∈ l₁, p y = false) (hz : p z = true) :
    updFirst p f (l₁ ++ z :: l₂) = l₁ ++ f z :: l₂ := by
  induction l₁ with
  | nil => simp [updFirst, hz]
  | cons a l ih =>
    have ha : p a = false := h₁ a (by simp)
    simp only [List.cons_append, updFirst, ha]
    simp only [Bool.false_eq_true, if_false, List.cons.injEq, true_and]
    exact ih fun y hy => h₁ y (by simp [hy])

theorem find?_append_split (p : α → Bool) (l₁ : List α) (z : α) (l₂ : List α)
    (h₁ : ∀ y ∈ l₁, p y = false) (hz : p z = true) :
    (l₁ ++ z :: l₂).find? p = some z := by
  induction l₁ with
  | nil => simp [List.find?, hz]
  | cons a l ih =>
    have ha : p a = false := h₁ a (by simp)
    simp only [List.cons_append, List.find?, ha]
    exact ih fun y hy => h₁ y (by simp [hy])

theorem find?_split (p : α → Bool) (l : List α) (u : α) (h : l.find? p = some u) :
    ∃ l₁ l₂, l = l₁ ++ u :: l₂ ∧ ∀ y ∈ l₁, p y = false := by
  induction l with
  | nil => simp [List.find?] at h
  | cons a l ih =>
    by_cases ha : p a = true
    · refine ⟨[], l, ?_, by simp⟩
      simp only [List.find?, ha] at h
      simp_all
    · have ha' : p a = false := by simpa using ha
      simp only [List.find?, ha'] at h
      obtain ⟨l₁, l₂, rfl, hl₁⟩ := ih h
      exact ⟨a :: l₁, l₂, rfl, by
        intro y hy
        rcases List.mem_cons.mp hy with rfl | hy
        · exact ha'
        · exact hl₁ y hy⟩

theorem find?_updFirst_of_ne (p q : α → Bool) (f : α → α) (l : List α)
    (hqf : ∀ x, q (f x) = q x) (hdisj : ∀ x, p x = true → q x = false) :
    (updFirst p f l).find? q = l.find? q := by
  induction l with
  | nil => rfl
  | cons a l ih =>
    by_cases ha : p a = true
    · have : q a = false := hdisj a ha
      simp [updFirst, ha, List.find?, hqf a, this]
    · have ha' : p a = false := by simpa using ha
      simp only [updFirst, ha']
      simp only [Bool.false_eq_true, if_false, List.find?]
      cases hq : q a with
      | true => rfl
      | false => exact ih

theorem updFirst_map (p : α → Bool) (f : α → α) (g : α → β) (l : List α)
    (h : ∀ x, g (f x) = g x) : (updFirst p f l).map g = l.map g := by
  induction l with
  | nil => rfl
  | cons a l ih =>
    by_cases ha : p a = true
    · simp [updFirst, ha, h a]
    · have ha' : p a = false := by simpa using ha
      simp [updFirst, ha', ih]

theorem mem_of_mem_updFirst (p : α → Bool) (f : α → α) (l : List α) (y : α)
    (h : y ∈ updFirst p f l) : y ∈ l ∨ ∃ x ∈ l, y = f x := by
  induction l with
  | nil => simp [updFirst] at h
  | cons a l ih =>
    by_cases ha : p a = true
    · simp only [updFirst, ha, if_pos, List.mem_cons] at h
      rcases h with rfl | h
      · exact Or.inr ⟨a, by simp, rfl⟩
      · exact Or.inl (List.mem_cons.mpr (Or.inr h))
    · have ha' : p a = false := by simpa using ha
      simp only [updFirst, ha', Bool.false_eq_true, if_false, List.mem_cons] at h
      rcases h with rfl | h
      · exact Or.inl (by simp)
      · rcases ih h with h | ⟨x, hx, rfl⟩
        · exact Or.inl (by simp [h])
        · exact Or.inr ⟨x, by simp [hx], rfl⟩

theorem le_foldl_max (l : List ℤ) : ∀ a b : ℤ, a ≤ b → a ≤ l.foldl max b := by
  induction l with
  | nil => intro a b h; simpa using h
  | cons x xs ih =>
    intro a b h
    exact ih a (max b x) (le_trans h (le_max_left b x))

theorem mem_le_foldl_max (l : List ℤ) : ∀ (b x : ℤ), x ∈ l → x ≤ l.foldl max b := by
  induction l with
  | nil => intro b x h; simp at h
  | cons a xs ih =>
    intro b x h
    rcases List.mem_cons.mp h with rfl | h
    · exact le_foldl_max xs x (max b x) (le_max_right b x)
    · exact ih (max b a) x h

theorem mongo_max_id_ge (l : List ℤ) (x : ℤ) (h : x ∈ l) : x ≤ mongo_max_id l := by
  cases l with
  | nil => simp at h
  | cons a xs =>
    rcases List.mem_cons.mp h with rfl | h
    · exact le_foldl_max xs x x le_rfl
    · exact mem_le_foldl_max xs a x h

/-! ### Helper lemmas: leave-balance subdocuments -/

theorem beq3_cases {s : String} (h : (s == "pl" || s == "cl" || s == "sl") = true) :
    s = "pl" ∨ s = "cl" ∨ s = "sl" := by
  rcases Bool.or_eq_true_iff.mp h with h | h
  · rcases Bool.or_eq_true_iff.mp h with h | h
    · exact Or.inl (eq_of_beq h)
    · exact Or.inr (Or.inl (eq_of_beq h))
  · exact Or.inr (Or.inr (eq_of_beq h))

theorem getS_setS_self (lb : LeaveBalances) (t : String) (v : ℤ)
    (h : (t == "pl" || t == "cl" || t == "sl") = true) :
    (lb.setS t v).getS t = v := by
  rcases beq3_cases h with rfl | rfl | rfl <;>
    simp [LeaveBalances.setS, LeaveBalances.getS]

theorem getS_setS_other (lb : LeaveBalances) (t t' : String) (v : ℤ) (hne : t' ≠ t) :
    (lb.setS t v).getS t' = lb.getS t' := by
  by_cases h1 : t = "pl"
  · subst h1
    simp only [LeaveBalances.setS, beq_self_eq_true, if_pos]
    have : (t' == "pl") = false := by simpa using hne
    simp [LeaveBalances.getS, this]
  · by_cases h2 : t = "cl"
    · subst h2
      have hb : (("cl" : String) == "pl") = false := by decide
      simp only [LeaveBalances.setS, beq_self_eq_true, hb]
      have : (t' == "cl") = false := by simpa using hne
      simp [LeaveBalances.getS, this]
    · by_cases h3 : t = "sl"
      · subst h3
        simp only [LeaveBalances.setS]
        have hb1 : (("sl" : String) == "pl") = false := by decide
        have hb2 : (("sl" : String) == "cl") = false := by decide
        have : (t' == "sl") = false := by simpa using hne
        simp [hb1, hb2, LeaveBalances.getS, this]
      · have hb1 : (t == "pl") = false := by simp [h1]
        have hb2 : (t == "cl") = false := by simp [h2]
        have hb3 : (t == "sl") = false := by simp [h3]
        simp [LeaveBalances.setS, hb1, hb2, hb3]

/-! ### Helper lemmas: one successful `apply_leave` / `cancel_leave` step -/

/-- The transformation `apply_leave` performs on the target user document:
the dotted-path `$set` of the decremented balance composed with the
`$push` of the history record. -/
def appliedUser (t date now : String) (u : User) : User :=
  { u with
    leave_balances := some ((u.leave_balances.getD emptyBalances).setS (pyLower t)
      ((u.leave_balances.getD defaultBalances).getS (pyLower t) - 1)),
    leave_history := u.leave_history ++ [⟨date, pyLower t, "applied", now, none, none⟩] }

/-- The transformation `cancel_leave` performs on the target user document. -/
def cancelledUser (t date now : String) (u : User) : User :=
  { u with
    leave_balances := some ((u.leave_balances.getD emptyBalances).setS (pyLower t)
      ((u.leave_balances.getD emptyBalances).getS (pyLower t) + 1)),
    leave_history := u.leave_history ++ [⟨date, pyLower t, "cancelled", now, none, none⟩] }

theorem apply_leave_ok (db : DB) (uid : ℤ) (t date now : String) (u : User)
    (hfind : db.users.find? (fun v => v.id == uid) = some u)
    (hval : (pyLower t == "pl" || pyLower t == "cl" || pyLower t == "sl") = true)
    (hpos : 0 < (u.leave_balances.getD defaultBalances).getS (pyLower t)) :
    ∃ l₁ l₂, db.users = l₁ ++ u :: l₂ ∧ (∀ y ∈ l₁, (y.id == uid) = false) ∧
      apply_leave db uid t date now =
        .ok ({ new_balance := (u.leave_balances.getD defaultBalances).getS (pyLower t) - 1,
               leave_type := pyUpper (pyLower t) },
             { db with users := l₁ ++ appliedUser t date now u :: l₂ }) := by
  obtain ⟨l₁, l₂, hsplit, hfalse⟩ := find?_split _ _ _ hfind
  have hp : (u.id == uid) = true := by simpa using List.find?_some hfind
  refine ⟨l₁, l₂, hsplit, hfalse, ?_⟩
  simp only [apply_leave, hfind]
  rw [if_neg (by simp [hval]), if_neg (not_le.mpr hpos)]
  simp only [DB.updateUser, hsplit]
  rw [updFirst_append _ _ _ _ _ hfalse hp,
      updFirst_append _ _ _ _ _ hfalse (by simpa using hp)]
  rfl

theorem cancel_leave_ok (db : DB) (uid : ℤ) (t date now : String) (u : User)
    (lb : LeaveBalances)
    (hfind : db.users.find? (fun v => v.id == uid) = some u)
    (hlb : u.leave_balances = some lb)
    (hval : (pyLower t == "pl" || pyLower t == "cl" || pyLower t == "sl") = true) :
    ∃ l₁ l₂, db.users = l₁ ++ u :: l₂ ∧ (∀ y ∈ l₁, (y.id == uid) = false) ∧
      cancel_leave db uid t date now =
        .ok ({ new_balance := lb.getS (pyLower t) + 1, leave_type := pyUpper (pyLower t) },
             { db with users := l₁ ++ cancelledUser t date now u :: l₂ }) := by
  obtain ⟨l₁, l₂, hsplit, hfalse⟩ := find?_split _ _ _ hfind
  have hp : (u.id == uid) = true := by simpa using List.find?_some hfind
  refine ⟨l₁, l₂, hsplit, hfalse, ?_⟩
  simp only [cancel_leave, hfind, hlb]
  rw [if_neg (by simp [hval])]
  simp only [DB.updateUser, hsplit]
  rw [updFirst_append _ _ _ _ _ hfalse hp,
      updFirst_append _ _ _ _ _ hfalse (by simpa using hp)]
  simp only [cancelledUser, hlb, Option.getD_some]

theorem apply_leave_ok_inv (db : DB) (uid : ℤ) (t date now : String) (r : LeaveOk)
    (db' : DB) (h : apply_leave db uid t date now = .ok (r, db')) :
    ∃ u, db.users.find? (fun v => v.id == uid) = some u ∧
      (pyLower t == "pl" || pyLower t == "cl" || pyLower t == "sl") = true ∧
      0 < (u.leave_balances.getD defaultBalances).getS (pyLower t) ∧
      r.new_balance = (u.leave_balances.getD defaultBalances).getS (pyLower t) - 1 ∧
      ∃ l₁ l₂, db.users = l₁ ++ u :: l₂ ∧ (∀ y ∈ l₁, (y.id == uid) = false) ∧
        db'.users = l₁ ++ appliedUser t date now u :: l₂ ∧
        db'.attendance = db.attendance := by
  cases hfind : db.users.find? (fun v => v.id == uid) with
  | none => simp [apply_leave, hfind] at h
  | some u =>
    by_cases hval : (pyLower t == "pl" || pyLower t == "cl" || pyLower t == "sl") = true
    · by_cases hpos : 0 < (u.leave_balances.getD defaultBalances).getS (pyLower t)
      · obtain ⟨l₁, l₂, hsplit, hfalse, heq⟩ := apply_leave_ok db uid t date now u hfind hval hpos
        rw [heq] at h
        have h1 : r = { new_balance := (u.leave_balances.getD defaultBalances).getS (pyLower t) - 1,
                        leave_type := pyUpper (pyLower t) } := by
          cases h
          rfl
        have h2 : db' = { db with users := l₁ ++ appliedUser t date now u :: l₂ } := by
          cases h
          rfl
        refine ⟨u, rfl, hval, hpos, ?_, l₁, l₂, hsplit, hfalse, ?_, ?_⟩
        · rw [h1]
        · rw [h2]
        · rw [h2]
      · have hle : (u.leave_balances.getD defaultBalances).getS (pyLower t) ≤ 0 := not_lt.mp hpos
        simp only [apply_leave, hfind] at h
        rw [if_neg (by simp [hval]), if_pos hle] at h
        exact Except.noConfusion h
    · have hval' : (pyLower t == "pl" || pyLower t == "cl" || pyLower t == "sl") = false := by
        simpa using hval
      simp only [apply_leave, hfind] at h
      rw [if_pos (by simp [hval'])] at h
      exact Except.noConfusion h

/-- Non-negativity of the three effective leave balances of a user, read
the way `apply_leave` reads them (absent subdocument defaulted). -/
def lbNonneg (v : User) : Prop :=
  ∀ s ∈ (["pl", "cl", "sl"] : List String),
    0 ≤ (v.leave_balances.getD defaultBalances).getS s

theorem appliedUser_nonneg (t date now : String) (u : User)
    (hval : (pyLower t == "pl" || pyLower t == "cl" || pyLower t == "sl") = true)
    (hpos : 0 < (u.leave_balances.getD defaultBalances).getS (pyLower t))
    (hu : lbNonneg u) : lbNonneg (appliedUser t date now u) := by
  intro s hs
  simp only [appliedUser, Option.getD_some]
  by_cases heq : s = pyLower t
  · subst heq
    rw [getS_setS_self _ _ _ hval]
    omega
  · rw [getS_setS_other _ _ _ _ heq]
    cases hb : u.leave_balances with
    | none => simp [emptyBalances, LeaveBalances.getS]
    | some lb =>
      have := hu s hs
      rw [hb] at this
      simpa using this

/-- Claim C1: `apply_leave` fails with `UserNotFound` when no user with
the id exists; fails with `InvalidLeaveType` when the lower-cased type is
not one of pl/cl/sl; fails with `InsufficientBalance` when the current
balance for that type is ≤ 0; on success decrements that balance by
exactly 1 and appends a `LeaveEvent` with action `applied`; and a
successful `apply_leave` never drives any balance below 0 (the resulting
balance is ≥ 0, and non-negativity of all balances of all users is
preserved, hence holds after every sequence of operations). -/
theorem apply_leave_spec (db : DB) (uid : ℤ) (t date now : String) :
    (db.users.find? (fun v => v.id == uid) = none →
      apply_leave db uid t date now = .error .userNotFound) ∧
    (∀ u, db.users.find? (fun v => v.id == uid) = some u →
      (pyLower t == "pl" || pyLower t == "cl" || pyLower t == "sl") = false →
      apply_leave db uid t date now = .error .invalidLeaveType) ∧
    (∀ u, db.users.find? (fun v => v.id == uid) = some u →
      (pyLower t == "pl" || pyLower t == "cl" || pyLower t == "sl") = true →
      (u.leave_balances.getD defaultBalances).getS (pyLower t) ≤ 0 →
      apply_leave db uid t date now = .error (.insufficientBalance (pyLower t))) ∧
    (∀ u, db.users.find? (fun v => v.id == uid) = some u →
      (pyLower t == "pl" || pyLower t == "cl" || pyLower t == "sl") = true →
      0 < (u.leave_balances.getD defaultBalances).getS (pyLower t) →
      ∃ db' u', apply_leave db uid t date now =
          .ok ({ new_balance := (u.leave_balances.getD defaultBalances).getS (pyLower t) - 1,
                 leave_type := pyUpper (pyLower t) }, db') ∧
        db'.users.find? (fun v => v.id == uid) = some u' ∧
        (u'.leave_balances.getD defaultBalances).getS (pyLower t)
          = (u.leave_balances.getD defaultBalances).getS (pyLower t) - 1 ∧
        0 ≤ (u'.leave_balances.getD defaultBalances).getS (pyLower t) ∧
        u'.leave_history = u.leave_history ++ [⟨date, pyLower t, "applied", now, none, none⟩]) ∧
    (∀ r db', apply_leave db uid t date now = .ok (r, db') →
      0 ≤ r.new_balance ∧ ((∀ v ∈ db.users, lbNonneg v) → ∀ v ∈ db'.users, lbNonneg v)) := by
  refine ⟨?_, ?_, ?_, ?_, ?_⟩
  · intro h
    simp [apply_leave, h]
  · intro u hf hvf
    simp only [apply_leave, hf]
    rw [if_pos (by simp [hvf])]
  · intro u hf hv hle
    simp only [apply_leave, hf]
    rw [if_neg (by simp [hv]), if_pos hle]
  · intro u hf hv hp
    obtain ⟨l₁, l₂, hsplit, hfalse, heq⟩ := apply_leave_ok db uid t date now u hf hv hp
    have hid : ((appliedUser t date now u).id == uid) = true := by
      simpa [appliedUser] using List.find?_some hf
    refine ⟨_, appliedUser t date now u, heq, ?_, ?_, ?_, ?_⟩
    · exact find?_append_split _ _ _ _ hfalse hid
    · simp [appliedUser, getS_setS_self _ _ _ hv]
    · simp [appliedUser, getS_setS_self _ _ _ hv]
      omega
    · simp [appliedUser]
  · intro r db' h
    obtain ⟨u, hf, hv, hp, hr, l₁, l₂, hsplit, hfalse, husers, -⟩ :=
      apply_leave_ok_inv db uid t date now r db' h
    refine ⟨by omega, ?_⟩
    intro hall v hv'
    rw [husers] at hv'
    rcases List.mem_append.mp hv' with hv' | hv'
    · exact hall v (by rw [hsplit]; exact List.mem_append.mpr (Or.inl hv'))
    · rcases List.mem_cons.mp hv' with rfl | hv'
      · exact appliedUser_nonneg t date now u hv hp
          (hall u (by rw [hsplit]; simp))
      · exact hall v (by rw [hsplit]; simp [hv'])

/-- Witness for C1: concrete instantiations of the user-not-found,
insufficient-balance, success and non-negativity conjuncts. -/
theorem apply_leave_spec_witness :
    (apply_leave ⟨[], [], [], []⟩ 7 "PL" "2025-04-07" "ts" = .error .userNotFound) ∧
    (apply_leave ⟨[⟨1, "user", "A", some ⟨some 0, some 7, some 7⟩, []⟩], [], [], []⟩
        1 "PL" "2025-04-07" "ts" = .error (.insufficientBalance (pyLower "PL"))) ∧
    (∃ db' u',
      apply_leave ⟨[⟨1, "user", "A", some defaultBalances, []⟩], [], [], []⟩
          1 "PL" "2025-04-07" "ts" =
        .ok ({ new_balance :=
                 (((⟨1, "user", "A", some defaultBalances, []⟩ : User)).leave_balances.getD
                   defaultBalances).getS (pyLower "PL") - 1,
               leave_type := pyUpper (pyLower "PL") }, db') ∧
      db'.users.find? (fun v => v.id == 1) = some u' ∧
      u'.leave_history = [⟨"2025-04-07", pyLower "PL", "applied", "ts", none, none⟩]) := by
  refine ⟨?_, ?_, ?_⟩
  · exact (apply_leave_spec ⟨[], [], [], []⟩ 7 "PL" "2025-04-07" "ts").1 (by decide)
  · exact (apply_leave_spec ⟨[⟨1, "user", "A", some ⟨some 0, some 7, some 7⟩, []⟩], [], [], []⟩
        1 "PL" "2025-04-07" "ts").2.2.1
      ⟨1, "user", "A", some ⟨some 0, some 7, some 7⟩, []⟩ (by decide) (by decide) (by decide)
  · obtain ⟨db', u', heq, hfind, -, -, hh⟩ :=
      (apply_leave_spec ⟨[⟨1, "user", "A", some defaultBalances, []⟩], [], [], []⟩
          1 "PL" "2025-04-07" "ts").2.2.2.1
        ⟨1, "user", "A", some defaultBalances, []⟩ (by decide) (by decide) (by decide)
    exact ⟨db', u', heq, hfind, by simpa using hh⟩

/-- Claim C10: `cancel_leave` on an existing user whose document lacks the
`leave_balances` field raises the `KeyError` of the bare subscript
`user["leave_balances"]` — an error outside the specified kinds
`UserNotFound`/`InvalidLeaveType` — while `apply_leave` succeeds for the
same user (it defaults the missing balances in memory) and
`get_user_leave_balances` returns the backfilled defaults. -/
theorem cancel_leave_missing_balances (db : DB) (uid : ℤ) (t date now : String) (u : User)
    (hfind : db.users.find? (fun v => v.id == uid) = some u)
    (hnolb : u.leave_balances = none)
    (hval : (pyLower t == "pl" || pyLower t == "cl" || pyLower t == "sl") = true) :
    cancel_leave db uid t date now = .error .keyErrorLeaveBalances ∧
    LeaveErr.keyErrorLeaveBalances ≠ LeaveErr.userNotFound ∧
    LeaveErr.keyErrorLeaveBalances ≠ LeaveErr.invalidLeaveType ∧
    (∃ r db', apply_leave db uid t date now = .ok (r, db')) ∧
    (get_user_leave_balances db uid).1 = some defaultBalances := by
  have hpos : 0 < (u.leave_balances.getD defaultBalances).getS (pyLower t) := by
    rw [hnolb]
    rcases beq3_cases hval with h | h | h <;> rw [h] <;> decide
  refine ⟨?_, by decide, by decide, ?_, ?_⟩
  · simp only [cancel_leave, hfind, hnolb]
    rw [if_neg (by simp [hval])]
  · obtain ⟨l₁, l₂, -, -, heq⟩ := apply_leave_ok db uid t date now u hfind hval hpos
    exact ⟨_, _, heq⟩
  · simp [get_user_leave_balances, hfind, hnolb]

/-- Witness for C10: a concrete user document without `leave_balances`. -/
theorem cancel_leave_missing_balances_witness :
    cancel_leave ⟨[⟨3, "user", "C", none, []⟩], [], [], []⟩ 3 "PL" "2025-04-07" "ts"
        = .error .keyErrorLeaveBalances ∧
    (∃ r db', apply_leave ⟨[⟨3, "user", "C", none, []⟩], [], [], []⟩ 3 "PL" "2025-04-07" "ts"
        = .ok (r, db')) ∧
    (get_user_leave_balances ⟨[⟨3, "user", "C", none, []⟩], [], [], []⟩ 3).1
        = some defaultBalances := by
  obtain ⟨h1, -, -, h4, h5⟩ :=
    cancel_leave_missing_balances ⟨[⟨3, "user", "C", none, []⟩], [], [], []⟩ 3
      "PL" "2025-04-07" "ts" ⟨3, "user", "C", none, []⟩ (by decide) (by decide) (by decide)
  exact ⟨h1, h4, h5⟩

/-! ### Iterated applies and cancels (C2) -/

theorem apply_iter_ok (uid : ℤ) (t date now : String)
    (hval : (pyLower t == "pl" || pyLower t == "cl" || pyLower t == "sl") = true) :
    ∀ (N : ℕ) (db : DB) (u : User) (lb : LeaveBalances),
      db.users.find? (fun v => v.id == uid) = some u →
      u.leave_balances = some lb →
      (N : ℤ) ≤ lb.getS (pyLower t) →
      ∃ dbA u₁ lb₁, apply_leave_iter uid t date now N db = some dbA ∧
        dbA.users.find? (fun v => v.id == uid) = some u₁ ∧
        u₁.leave_balances = some lb₁ ∧
        lb₁.getS (pyLower t) = lb.getS (pyLower t) - N := by
  intro N
  induction N with
  | zero =>
    intro db u lb hfind hlb hN
    exact ⟨db, u, lb, rfl, hfind, hlb, by simp⟩
  | succ n ih =>
    intro db u lb hfind hlb hN
    have hpos : 0 < (u.leave_balances.getD defaultBalances).getS (pyLower t) := by
      rw [hlb]
      simp only [Option.getD_some]
      push_cast at hN
      omega
    obtain ⟨l₁, l₂, hsplit, hfalse, heq⟩ := apply_leave_ok db uid t date now u hfind hval hpos
    have hid : ((appliedUser t date now u).id == uid) = true := by
      simpa [appliedUser] using List.find?_some hfind
    have hfind1 : ({ db with users := l₁ ++ appliedUser t date now u :: l₂ } : DB).users.find?
        (fun v => v.id == uid) = some (appliedUser t date now u) :=
      find?_append_split _ _ _ _ hfalse hid
    have hlb1 : (appliedUser t date now u).leave_balances
        = some (lb.setS (pyLower t) (lb.getS (pyLower t) - 1)) := by
      simp [appliedUser, hlb]
    have hgs1 : (lb.setS (pyLower t) (lb.getS (pyLower t) - 1)).getS (pyLower t)
        = lb.getS (pyLower t) - 1 := getS_setS_self _ _ _ hval
    have hN1 : (n : ℤ) ≤ (lb.setS (pyLower t) (lb.getS (pyLower t) - 1)).getS (pyLower t) := by
      rw [hgs1]
      push_cast at hN
      omega
    obtain ⟨dbA, u₁, lb₁, hiter, hfindA, hlbA, hgsA⟩ :=
      ih { db with users := l₁ ++ appliedUser t date now u :: l₂ }
        (appliedUser t date now u) (lb.setS (pyLower t) (lb.getS (pyLower t) - 1))
        hfind1 hlb1 hN1
    refine ⟨dbA, u₁, lb₁, ?_, hfindA, hlbA, ?_⟩
    · simp only [apply_leave_iter, heq]
      exact hiter
    · rw [hgsA, hgs1]
      push_cast
      omega

theorem cancel_iter_ok (uid : ℤ) (t date now : String)
    (hval : (pyLower t == "pl" || pyLower t == "cl" || pyLower t == "sl") = true) :
    ∀ (N : ℕ) (db : DB) (u : User) (lb : LeaveBalances),
      db.users.find? (fun v => v.id == uid) = some u →
      u.leave_balances = some lb →
      ∃ dbF u₁ lb₁, cancel_leave_iter uid t date now N db = some dbF ∧
        dbF.users.find? (fun v => v.id == uid) = some u₁ ∧
        u₁.leave_balances = some lb₁ ∧
        lb₁.getS (pyLower t) = lb.getS (pyLower t) + N := by
  intro N
  induction N with
  | zero =>
    intro db u lb hfind hlb
    exact ⟨db, u, lb, rfl, hfind, hlb, by simp⟩
  | succ n ih =>
    intro db u lb hfind hlb
    obtain ⟨l₁, l₂, hsplit, hfalse, heq⟩ := cancel_leave_ok db uid t date now u lb hfind hlb hval
    have hid : ((cancelledUser t date now u).id == uid) = true := by
      simpa [cancelledUser] using List.find?_some hfind
    have hfind1 : ({ db with users := l₁ ++ cancelledUser t date now u :: l₂ } : DB).users.find?
        (fun v => v.id == uid) = some (cancelledUser t date now u) :=
      find?_append_split _ _ _ _ hfalse hid
    have hlb1 : (cancelledUser t date now u).leave_balances
        = some (lb.setS (pyLower t) (lb.getS (pyLower t) + 1)) := by
      simp [cancelledUser, hlb]
    have hgs1 : (lb.setS (pyLower t) (lb.getS (pyLower t) + 1)).getS (pyLower t)
        = lb.getS (pyLower t) + 1 := getS_setS_self _ _ _ hval
    obtain ⟨dbF, u₁, lb₁, hiter, hfindF, hlbF, hgsF⟩ :=
      ih { db with users := l₁ ++ cancelledUser t date now u :: l₂ }
        (cancelledUser t date now u) (lb.setS (pyLower t) (lb.getS (pyLower t) + 1))
        hfind1 hlb1
    refine ⟨dbF, u₁, lb₁, ?_, hfindF, hlbF, ?_⟩
    · simp only [cancel_leave_iter, heq]
      exact hiter
    · rw [hgsF, hgs1]
      push_cast
      omega

/-- Claim C2: for a user whose `leave_balances` entry for a valid type is
at least `N`, `N` successful `apply_leave` calls followed by `N`
`cancel_leave` calls of the same type restore the entry to its original
value. -/
theorem apply_cancel_roundtrip (db : DB) (uid : ℤ) (t date1 date2 now1 now2 : String)
    (u : User) (lb : LeaveBalances) (N : ℕ)
    (hfind : db.users.find? (fun v => v.id == uid) = some u)
    (hlb : u.leave_balances = some lb)
    (ht : t = "pl" ∨ t = "cl" ∨ t = "sl")
    (hN : (N : ℤ) ≤ lb.getS t) :
    ∃ dbA dbF u₁ lb₁,
      apply_leave_iter uid t date1 now1 N db = some dbA ∧
      cancel_leave_iter uid t date2 now2 N dbA = some dbF ∧
      dbF.users.find? (fun v => v.id == uid) = some u₁ ∧
      u₁.leave_balances = some lb₁ ∧
      lb₁.getS t = lb.getS t := by
  have hlow : pyLower t = t := by rcases ht with rfl | rfl | rfl <;> decide
  have hval : (pyLower t == "pl" || pyLower t == "cl" || pyLower t == "sl") = true := by
    rw [hlow]
    rcases ht with rfl | rfl | rfl <;> decide
  obtain ⟨dbA, uA, lbA, hiterA, hfindA, hlbA, hgsA⟩ :=
    apply_iter_ok uid t date1 now1 hval N db u lb hfind hlb (by rw [hlow]; exact hN)
  obtain ⟨dbF, uF, lbF, hiterF, hfindF, hlbF, hgsF⟩ :=
    cancel_iter_ok uid t date2 now2 hval N dbA uA lbA hfindA hlbA
  refine ⟨dbA, dbF, uF, lbF, hiterA, hiterF, hfindF, hlbF, ?_⟩
  rw [← hlow]
  rw [hgsF, hgsA]
  omega

/-- Witness for C2: three applies and three cancels of `pl` starting from
the default allocation restore the entry to 18. -/
theorem apply_cancel_roundtrip_witness :
    ∃ dbA dbF u₁ lb₁,
      apply_leave_iter 1 "pl" "2025-04-07" "ts" 3
          ⟨[⟨1, "user", "A", some defaultBalances, []⟩], [], [], []⟩ = some dbA ∧
      cancel_leave_iter 1 "pl" "2025-04-08" "ts" 3 dbA = some dbF ∧
      dbF.users.find? (fun v => v.id == 1) = some u₁ ∧
      u₁.leave_balances = some lb₁ ∧
      lb₁.getS "pl" = defaultBalances.getS "pl" := by
  exact apply_cancel_roundtrip ⟨[⟨1, "user", "A", some defaultBalances, []⟩], [], [], []⟩
    1 "pl" "2025-04-07" "2025-04-08" "ts" "ts" ⟨1, "user", "A", some defaultBalances, []⟩
    defaultBalances 3 (by decide) (by decide) (Or.inl rfl) (by decide)

/-! ### Year-end rollover (C3) -/

/-- The transformation one rollover iteration performs on the target user
document (balance replace composed with the history `$push`). -/
def rolledUser (year : ℤ) (now : String) (u : User) : User :=
  { u with
    leave_balances := some (rolloverBalances (u.leave_balances.getD defaultBalances)),
    leave_history := u.leave_history ++
      [⟨toString year ++ "-12-31", "rollover", "year_end", now,
        some (u.leave_balances.getD defaultBalances),
        some (rolloverBalances (u.leave_balances.getD defaultBalances))⟩] }

theorem rolloverStep_find_other (year : ℤ) (now : String) (db : DB) (s : User) (tid : ℤ)
    (hne : s.id ≠ tid) :
    (rolloverStep year now db s).users.find? (fun v => v.id == tid)
      = db.users.find? (fun v => v.id == tid) := by
  have hdisj : ∀ x : User, (x.id == s.id) = true → (x.id == tid) = false := by
    intro x hx
    have : x.id = s.id := eq_of_beq hx
    simp [this, hne]
  simp only [rolloverStep, DB.updateUser]
  rw [find?_updFirst_of_ne _ _ _ _ (by intro x; rfl) hdisj,
      find?_updFirst_of_ne _ _ _ _ (by intro x; rfl) hdisj]

theorem rolloverStep_find_hit (year : ℤ) (now : String) (db : DB) (u : User)
    (hfind : db.users.find? (fun v => v.id == u.id) = some u) :
    (rolloverStep year now db u).users.find? (fun v => v.id == u.id)
      = some (rolledUser year now u) := by
  obtain ⟨l₁, l₂, hsplit, hfalse⟩ := find?_split _ _ _ hfind
  have hp : (u.id == u.id) = true := by simp
  simp only [rolloverStep, DB.updateUser, hsplit]
  rw [updFirst_append _ _ _ _ _ hfalse hp, updFirst_append _ _ _ _ _ hfalse (by simp)]
  exact find?_append_split _ _ _ _ hfalse (by simp)

theorem rollover_fold_skip (year : ℤ) (now : String) (tid : ℤ) :
    ∀ (S : List User) (db : DB), (∀ s ∈ S, s.id ≠ tid) →
      (S.foldl (rolloverStep year now) db).users.find? (fun v => v.id == tid)
        = db.users.find? (fun v => v.id == tid) := by
  intro S
  induction S with
  | nil => intro db _; rfl
  | cons s S ih =>
    intro db hS
    rw [List.foldl_cons, ih _ (fun x hx => hS x (by simp [hx])),
        rolloverStep_find_other year now db s tid (hS s (by simp))]

theorem rollover_fold_map_id (year : ℤ) (now : String) :
    ∀ (S : List User) (db : DB),
      (S.foldl (rolloverStep year now) db).users.map User.id = db.users.map User.id := by
  intro S
  induction S with
  | nil => intro db; rfl
  | cons s S ih =>
    intro db
    rw [List.foldl_cons, ih]
    simp only [rolloverStep, DB.updateUser]
    rw [updFirst_map _ _ _ _ (by intro x; rfl), updFirst_map _ _ _ _ (by intro x; rfl)]

/-- One full rollover run, tracked at the user found first for a given id
(unique by the id-Nodup hypothesis). -/
theorem rollover_run (db : DB) (year : ℤ) (now : String) (u : User)
    (hnodup : (db.users.map User.id).Nodup)
    (hfind : db.users.find? (fun v => v.id == u.id) = some u)
    (hrole : u.role = "user") :
    (process_year_end_rollover db year now).2.users.find? (fun v => v.id == u.id)
      = some (rolledUser year now u) ∧
    (process_year_end_rollover db year now).2.users.map User.id = db.users.map User.id ∧
    (process_year_end_rollover db year now).1
      = (db.users.filter (fun v => v.role == "user")).length := by
  have hmem : u ∈ db.users := List.mem_of_find?_eq_some hfind
  have hmemS : u ∈ db.users.filter (fun v => v.role == "user") :=
    List.mem_filter.mpr ⟨hmem, by simp [hrole]⟩
  obtain ⟨S₁, S₂, hS⟩ := List.append_of_mem hmemS
  have hndS : ((db.users.filter (fun v => v.role == "user")).map User.id).Nodup :=
    (hnodup.sublist (List.Sublist.map User.id (List.filter_sublist _)))
  rw [hS] at hndS
  rw [List.map_append, List.map_cons] at hndS
  obtain ⟨nd₁, nd₂, hdisj⟩ := List.nodup_append.mp hndS
  have h₁ : ∀ s ∈ S₁, s.id ≠ u.id := by
    intro s hs heq
    exact hdisj (List.mem_map_of_mem User.id hs) (by simp [heq])
  have h₂ : ∀ s ∈ S₂, s.id ≠ u.id := by
    intro s hs heq
    have : u.id ∉ S₂.map User.id := by
      have := List.Nodup.not_mem nd₂
      simpa using this
    exact this (heq ▸ List.mem_map_of_mem User.id hs)
  refine ⟨?_, ?_, rfl⟩
  · show ((db.users.filter (fun v => v.role == "user")).foldl
        (rolloverStep year now) db).users.find? (fun v => v.id == u.id) = _
    rw [hS, List.foldl_append, List.foldl_cons]
    rw [rollover_fold_skip year now u.id S₂ _ h₂]
    rw [rolloverStep_find_hit year now _ u
      (by rw [rollover_fold_skip year now u.id S₁ db h₁]; exact hfind)]
  · show ((db.users.filter (fun v => v.role == "user")).foldl
        (rolloverStep year now) db).users.map User.id = _
    exact rollover_fold_map_id year now _ db

/-- Claim C3: `process_year_end_rollover` transforms every non-admin
(`role = "user"`) user's balances to `pl = 18 + old.pl`, `cl = 7 + old.cl`,
`sl = 7`, appends a rollover `LeaveEvent` recording the old and new
balances, and returns the number of processed (role `"user"`) users;
running it twice yields `pl = 36 + old.pl` and `cl = 14 + old.cl` (the
operation is not idempotent). -/
theorem process_year_end_rollover_spec (db : DB) (uid year year2 : ℤ) (now now2 : String)
    (u : User) (lb : LeaveBalances)
    (hnodup : (db.users.map User.id).Nodup)
    (hfind : db.users.find? (fun v => v.id == uid) = some u)
    (hrole : u.role = "user")
    (hlb : u.leave_balances = some lb) :
    (process_year_end_rollover db year now).1
      = (db.users.filter (fun v => v.role == "user")).length ∧
    (∃ u₁, (process_year_end_rollover db year now).2.users.find? (fun v => v.id == uid)
        = some u₁ ∧
      u₁.leave_balances = some ⟨some (18 + lb.pl.getD 0), some (7 + lb.cl.getD 0), some 7⟩ ∧
      u₁.leave_history = u.leave_history ++
        [⟨toString year ++ "-12-31", "rollover", "year_end", now, some lb,
          some ⟨some (18 + lb.pl.getD 0), some (7 + lb.cl.getD 0), some 7⟩⟩]) ∧
    (∃ u₂, (process_year_end_rollover
          (process_year_end_rollover db year now).2 year2 now2).2.users.find?
          (fun v => v.id == uid) = some u₂ ∧
      u₂.leave_balances = some ⟨some (36 + lb.pl.getD 0), some (14 + lb.cl.getD 0), some 7⟩) := by
  have hbe : (u.id == uid) = true := by simpa using List.find?_some hfind
  obtain rfl : u.id = uid := eq_of_beq hbe
  obtain ⟨hf1, hm1, hc1⟩ := rollover_run db year now u hnodup hfind hrole
  have hrb : rolloverBalances lb
      = ⟨some (18 + lb.pl.getD 0), some (7 + lb.cl.getD 0), some 7⟩ := rfl
  refine ⟨hc1, ⟨rolledUser year now u, hf1, ?_, ?_⟩, ?_⟩
  · simp [rolledUser, hlb, hrb]
  · simp [rolledUser, hlb, hrb]
  · have hnodup2 : ((process_year_end_rollover db year now).2.users.map User.id).Nodup := by
      rw [hm1]
      exact hnodup
    have hrole2 : (rolledUser year now u).role = "user" := hrole
    have hfind2 : (process_year_end_rollover db year now).2.users.find?
        (fun v => v.id == (rolledUser year now u).id) = some (rolledUser year now u) := hf1
    obtain ⟨hf2, -, -⟩ :=
      rollover_run (process_year_end_rollover db year now).2 year2 now2
        (rolledUser year now u) hnodup2 hfind2 hrole2
    refine ⟨rolledUser year2 now2 (rolledUser year now u), hf2, ?_⟩
    have e1 : (18 : ℤ) + (18 + lb.pl.getD 0) = 36 + lb.pl.getD 0 := by ring
    have e2 : (7 : ℤ) + (7 + lb.cl.getD 0) = 14 + lb.cl.getD 0 := by ring
    simp [rolledUser, rolloverBalances, hlb, e1, e2]

/-- Witness for C3: one non-admin user with the default allocation; after
one rollover `pl = 36`, `cl = 14`, `sl = 7`, after two `pl = 54`,
`cl = 21`, `sl = 7`. -/
theorem process_year_end_rollover_spec_witness :
    (process_year_end_rollover
        ⟨[⟨1, "user", "A", some defaultBalances, []⟩], [], [], []⟩ 2025 "ts").1 = 1 ∧
    (∃ u₁, (process_year_end_rollover
        ⟨[⟨1, "user", "A", some defaultBalances, []⟩], [], [], []⟩ 2025 "ts").2.users.find?
        (fun v => v.id == 1) = some u₁ ∧
      u₁.leave_balances = some ⟨some (18 + 18), some (7 + 7), some 7⟩) ∧
    (∃ u₂, (process_year_end_rollover
        (process_year_end_rollover
          ⟨[⟨1, "user", "A", some defaultBalances, []⟩], [], [], []⟩ 2025 "ts").2
        2026 "ts").2.users.find? (fun v => v.id == 1) = some u₂ ∧
      u₂.leave_balances = some ⟨some (36 + 18), some (14 + 7), some 7⟩) := by
  obtain ⟨h1, ⟨u₁, hf1, hb1, -⟩, ⟨u₂, hf2, hb2⟩⟩ :=
    process_year_end_rollover_spec
      ⟨[⟨1, "user", "A", some defaultBalances, []⟩], [], [], []⟩ 1 2025 2026 "ts" "ts"
      ⟨1, "user", "A", some defaultBalances, []⟩ defaultBalances
      (by decide) (by decide) rfl rfl
  refine ⟨by simpa using h1, ⟨u₁, hf1, by simpa using hb1⟩, ⟨u₂, hf2, by simpa using hb2⟩⟩

/-! ### Attendance upsert invariants (C4, C8, C9) -/

/-- The uniqueness key of an attendance record: the `(user_id, date)`
pair. -/
def pairKey (r : AttendanceRecord) : ℤ × String := (r.user_id, r.date)

/-- Well-formedness of the attendance collection: at most one record per
`(user_id, date)` pair, and distinct record ids. -/
def attWfL (l : List AttendanceRecord) : Prop :=
  (l.map pairKey).Nodup ∧ (l.map (fun r => r.id)).Nodup

theorem cancel_leave_ok_attendance (db : DB) (uid : ℤ) (t date now : String) (r : LeaveOk)
    (db' : DB) (h : cancel_leave db uid t date now = .ok (r, db')) :
    db'.attendance = db.attendance := by
  cases hfind : db.users.find? (fun v => v.id == uid) with
  | none => simp [cancel_leave, hfind] at h
  | some u =>
    simp only [cancel_leave, hfind] at h
    by_cases hval : (pyLower t == "pl" || pyLower t == "cl" || pyLower t == "sl") = true
    · rw [if_neg (by simp [hval])] at h
      cases hlb : u.leave_balances with
      | none =>
        rw [hlb] at h
        exact Except.noConfusion h
      | some lb =>
        rw [hlb] at h
        cases h
        rfl
    · rw [if_pos (by simpa using hval)] at h
      exact Except.noConfusion h

theorem add_attendance_db1_attendance (db : DB) (ad : AttData) (now : String)
    (ex : AttendanceRecord) :
    (if isLeaveStatus ex.status && isLeaveStatus ad.status &&
        pyUpper ex.status != pyUpper ad.status then
      match cancel_leave db ex.user_id (pyUpper ex.status) ex.date now with
      | .ok (_, db') => db'
      | .error _ => db
     else db).attendance = db.attendance := by
  split
  · cases hc : cancel_leave db ex.user_id (pyUpper ex.status) ex.date now with
    | ok p =>
      obtain ⟨r, db'⟩ := p
      exact cancel_leave_ok_attendance db ex.user_id (pyUpper ex.status) ex.date now r db' hc
    | error e => rfl
  · rfl

/-- The `$set` applied to an existing attendance record on the update
path. -/
def updatedRec (ad : AttData) (ex : AttendanceRecord) : AttendanceRecord :=
  { ex with status := ad.status, notes := ad.notes,
            in_time := ad.in_time.getD ex.in_time,
            out_time := ad.out_time.getD ex.out_time }

/-- The update path of `add_attendance`: under well-formedness, the hit
record is rewritten in place (same id, same pair), it is the record the
call returns, and the record count for the pair stays exactly 1. -/
theorem add_attendance_existing (db : DB) (ad : AttData) (now : String)
    (ex : AttendanceRecord)
    (hwf : attWfL db.attendance)
    (hfind : db.attendance.find? (fun r => r.user_id == ad.user_id && r.date == ad.date)
      = some ex) :
    (add_attendance db ad now).1 = some (updatedRec ad ex) ∧
    (add_attendance db ad now).2.attendance.countP
      (fun r => r.user_id == ad.user_id && r.date == ad.date) = 1 := by
  obtain ⟨m₁, m₂, hsplit, hfalse⟩ := find?_split _ _ _ hfind
  have hpex : (ex.user_id == ad.user_id && ex.date == ad.date) = true := by
    simpa using List.find?_some hfind
  have hids : ∀ y ∈ m₁, (y.id == ex.id) = false := by
    have hnd := hwf.2
    rw [hsplit, List.map_append, List.map_cons] at hnd
    obtain ⟨-, -, hdisj⟩ := List.nodup_append.mp hnd
    intro y hy
    by_contra hc
    have : y.id = ex.id := eq_of_beq (by simpa using hc)
    exact hdisj (List.mem_map_of_mem _ hy) (by simp [this])
  have hm₂ : ∀ y ∈ m₂, (y.user_id == ad.user_id && y.date == ad.date) = false := by
    have hnd := hwf.1
    rw [hsplit, List.map_append, List.map_cons] at hnd
    obtain ⟨-, hnd₂, -⟩ := List.nodup_append.mp hnd
    have hnotmem : pairKey ex ∉ m₂.map pairKey := by simpa using List.Nodup.not_mem hnd₂
    intro y hy
    by_contra hc
    have hc' : (y.user_id == ad.user_id && y.date == ad.date) = true := by simpa using hc
    have h1 : y.user_id = ad.user_id := eq_of_beq (Bool.and_eq_true_iff.mp hc').1
    have h2 : y.date = ad.date := eq_of_beq (Bool.and_eq_true_iff.mp hc').2
    have e1 : ex.user_id = ad.user_id := eq_of_beq (Bool.and_eq_true_iff.mp hpex).1
    have e2 : ex.date = ad.date := eq_of_beq (Bool.and_eq_true_iff.mp hpex).2
    have : pairKey y = pairKey ex := by simp [pairKey, h1, h2, e1, e2]
    exact hnotmem (this ▸ List.mem_map_of_mem pairKey hy)
  simp only [add_attendance, hfind]
  rw [add_attendance_db1_attendance db ad now ex]
  rw [hsplit, updFirst_append _ _ _ _ _ hids (by simp)]
  constructor
  · exact find?_append_split _ _ _ _ hids (by simp)
  · rw [List.countP_append, List.countP_cons]
    have hz₁ : List.countP (fun r => r.user_id == ad.user_id && r.date == ad.date) m₁ = 0 :=
      List.countP_eq_zero.mpr (by intro a ha; simp [hfalse a ha])
    have hz₂ : List.countP (fun r => r.user_id == ad.user_id && r.date == ad.date) m₂ = 0 :=
      List.countP_eq_zero.mpr (by intro a ha; simp [hm₂ a ha])
    rw [hz₁, hz₂]
    simp [hpex]

/-- When the stored and submitted statuses agree (as upper-cased strings),
the cancel branch of the update path is skipped, so the users collection
is untouched by `add_attendance`. -/
theorem add_attendance_same_status_users (db : DB) (ad : AttData) (now : String)
    (ex : AttendanceRecord)
    (hfind : db.attendance.find? (fun r => r.user_id == ad.user_id && r.date == ad.date)
      = some ex)
    (hsame : pyUpper ex.status = pyUpper ad.status) :
    (add_attendance db ad now).2.users = db.users := by
  simp only [add_attendance, hfind]
  rw [if_neg (by simp [hsame])]

/-- `add_attendance` preserves attendance well-formedness: the update path
rewrites one record in place without touching its key or id; the insert
path appends a record with a pair no existing record has and the fresh id
`max + 1`. -/
theorem add_attendance_wf (db : DB) (ad : AttData) (now : String)
    (hwf : attWfL db.attendance) : attWfL (add_attendance db ad now).2.attendance := by
  cases hfind : db.attendance.find? (fun r => r.user_id == ad.user_id && r.date == ad.date) with
  | some ex =>
    simp only [add_attendance, hfind]
    rw [add_attendance_db1_attendance db ad now ex]
    constructor
    · rw [updFirst_map _ _ _ _ (by intro x; rfl)]
      exact hwf.1
    · rw [updFirst_map _ _ _ _ (by intro x; rfl)]
      exact hwf.2
  | none =>
    have hnone := List.find?_eq_none.mp hfind
    simp only [add_attendance, hfind]
    constructor
    · rw [List.map_append]
      refine List.nodup_append.mpr ⟨hwf.1, List.nodup_singleton _, ?_⟩
      intro a ha hb
      simp only [List.map_cons, List.map_nil, List.mem_singleton] at hb
      obtain ⟨r, hr, hkey⟩ := List.mem_map.mp ha
      have : (r.user_id == ad.user_id && r.date == ad.date) = true := by
        have h1 : r.user_id = ad.user_id := by
          have := congrArg Prod.fst (hkey.trans hb)
          simpa [pairKey] using this
        have h2 : r.date = ad.date := by
          have := congrArg Prod.snd (hkey.trans hb)
          simpa [pairKey] using this
        simp [h1, h2]
      exact hnone r hr this
    · rw [List.map_append]
      refine List.nodup_append.mpr ⟨hwf.2, List.nodup_singleton _, ?_⟩
      intro a ha hb
      simp only [List.map_cons, List.map_nil, List.mem_singleton] at hb
      have hle : a ≤ mongo_max_id (db.attendance.map (fun r => r.id)) :=
        mongo_max_id_ge _ a ha
      omega

theorem upsert_snd (db1 : DB) (ad : AttData) (now : String) :
    ((match add_attendance db1 ad now with
      | (some r, db2) => (ApiResp.ok r, db2)
      | (none, db2) => (ApiResp.err "internal error", db2) : ApiResp × DB)).2
      = (add_attendance db1 ad now).2 := by
  rcases h : add_attendance db1 ad now with ⟨fst, snd⟩
  cases fst <;> rfl

/-- `create_attendance` preserves attendance well-formedness: the guard
failures leave the store untouched, `apply_leave` only writes to the users
collection, and the upsert preserves it. -/
theorem create_attendance_wf (db : DB) (req : AttendanceRequest) (now : String)
    (hwf : attWfL db.attendance) : attWfL (create_attendance db req now).2.attendance := by
  cases hp : parseDate req.date with
  | none => simpa [create_attendance, hp] using hwf
  | some ymd =>
    obtain ⟨y, m, d⟩ := ymd
    simp only [create_attendance, hp]
    by_cases hw : 5 ≤ weekday y m d
    · rw [if_pos hw]
      exact hwf
    · rw [if_neg hw]
      by_cases hls : isLeaveStatus req.status = true
      · rw [if_pos hls]
        cases happ : apply_leave db req.user_id (pyUpper req.status) req.date now with
        | error e => exact hwf
        | ok p =>
          obtain ⟨r, db1⟩ := p
          have hatt : db1.attendance = db.attendance :=
            (apply_leave_ok_inv db req.user_id (pyUpper req.status) req.date now r db1
              happ).choose_spec.2.2.2.2.choose_spec.choose_spec.2.2.2
          have hwf1 : attWfL db1.attendance := by rw [hatt]; exact hwf
          have hres := add_attendance_wf db1
            { user_id := req.user_id, status := req.status, date := req.date,
              notes := req.notes, in_time := some req.in_time,
              out_time := some req.out_time } now hwf1
          have goal2 : attWfL ((match add_attendance db1
              { user_id := req.user_id, status := req.status, date := req.date,
                notes := req.notes, in_time := some req.in_time,
                out_time := some req.out_time } now with
            | (some r, db2) => (ApiResp.ok r, db2)
            | (none, db2) => (ApiResp.err "internal error", db2) : ApiResp × DB)).2.attendance := by
            rw [upsert_snd]
            exact hres
          exact goal2
      · rw [if_neg hls]
        have hres := add_attendance_wf db
          { user_id := req.user_id, status := req.status, date := req.date,
            notes := req.notes, in_time := some req.in_time,
            out_time := some req.out_time } now hwf
        have goal2 : attWfL ((match add_attendance db
            { user_id := req.user_id, status := req.status, date := req.date,
              notes := req.notes, in_time := some req.in_time,
              out_time := some req.out_time } now with
          | (some r, db2) => (ApiResp.ok r, db2)
          | (none, db2) => (ApiResp.err "internal error", db2) : ApiResp × DB)).2.attendance := by
          rw [upsert_snd]
          exact hres
        exact goal2

/-- Claim C4: after any sequence of `create_attendance` calls starting
from a well-formed store there is at most one attendance record per
`(user_id, date)` pair; an `add_attendance` call that hits an existing
record for the pair updates it in place — its id (and key) are preserved,
and the record count for the pair stays exactly 1. -/
theorem attendance_upsert_spec (db : DB) (reqs : List AttendanceRequest) (now now2 : String)
    (ad : AttData) (ex : AttendanceRecord)
    (hwf : attWfL db.attendance) :
    ((reqs.foldl (fun d r => (create_attendance d r now).2) db).attendance.map pairKey).Nodup ∧
    (db.attendance.find? (fun r => r.user_id == ad.user_id && r.date == ad.date) = some ex →
      (add_attendance db ad now2).1 = some (updatedRec ad ex) ∧
      (updatedRec ad ex).id = ex.id ∧
      (updatedRec ad ex).user_id = ex.user_id ∧
      (updatedRec ad ex).date = ex.date ∧
      (add_attendance db ad now2).2.attendance.countP
        (fun r => r.user_id == ad.user_id && r.date == ad.date) = 1) := by
  constructor
  · suffices h : attWfL ((reqs.foldl (fun d r => (create_attendance d r now).2) db).attendance) by
      exact h.1
    induction reqs generalizing db with
    | nil => exact hwf
    | cons r rs ih =>
      rw [List.foldl_cons]
      exact ih _ (create_attendance_wf db r now hwf)
  · intro hfind
    obtain ⟨h1, h2⟩ := add_attendance_existing db ad now2 ex hwf hfind
    exact ⟨h1, rfl, rfl, rfl, h2⟩

/-- Witness for C4: a two-call sequence replaying the same day for the
same user, and a hit on the existing record. -/
theorem attendance_upsert_spec_witness :
    ((([⟨1, "present", "2025-04-07", none, none, none⟩,
        ⟨1, "absent", "2025-04-07", none, none, none⟩] : List AttendanceRequest).foldl
        (fun d r => (create_attendance d r "ts").2)
        ⟨[⟨1, "user", "A", some defaultBalances, []⟩],
         [⟨4, 1, "2025-04-07", "present", none, none, none⟩], [], []⟩).attendance.map
          pairKey).Nodup ∧
    (add_attendance ⟨[⟨1, "user", "A", some defaultBalances, []⟩],
        [⟨4, 1, "2025-04-07", "present", none, none, none⟩], [], []⟩
        ⟨1, "absent", "2025-04-07", some "x", some (some "09:00"), none⟩ "ts").1
      = some (updatedRec ⟨1, "absent", "2025-04-07", some "x", some (some "09:00"), none⟩
          ⟨4, 1, "2025-04-07", "present", none, none, none⟩) ∧
    (add_attendance ⟨[⟨1, "user", "A", some defaultBalances, []⟩],
        [⟨4, 1, "2025-04-07", "present", none, none, none⟩], [], []⟩
        ⟨1, "absent", "2025-04-07", some "x", some (some "09:00"), none⟩ "ts").2.attendance.countP
      (fun r => r.user_id == 1 && r.date == "2025-04-07") = 1 := by
  obtain ⟨h1, h2⟩ := attendance_upsert_spec
    ⟨[⟨1, "user", "A", some defaultBalances, []⟩],
     [⟨4, 1, "2025-04-07", "present", none, none, none⟩], [], []⟩
    [⟨1, "present", "2025-04-07", none, none, none⟩,
     ⟨1, "absent", "2025-04-07", none, none, none⟩] "ts" "ts"
    ⟨1, "absent", "2025-04-07", some "x", some (some "09:00"), none⟩
    ⟨4, 1, "2025-04-07", "present", none, none, none⟩ (by exact ⟨by decide, by decide⟩)
  obtain ⟨ha, -, -, -, hc⟩ := h2 (by decide)
  exact ⟨h1, ha, hc⟩

/-- Claim C7: `create_attendance` fails with the bad-format message when
the date does not parse as `%Y-%m-%d`, and with the weekend message when
the parsed date falls on Saturday or Sunday (`weekday ≥ 5`), regardless of
all other request fields; in both cases the store is returned unchanged
(no record created or updated, no leave applied). -/
theorem create_attendance_date_guards (db : DB) (req : AttendanceRequest) (now : String) :
    (parseDate req.date = none →
      create_attendance db req now = (.err "Invalid date format. Expected YYYY-MM-DD", db)) ∧
    (∀ y m d, parseDate req.date = some (y, m, d) → 5 ≤ weekday y m d →
      create_attendance db req now = (.err "Attendance cannot be marked on weekends", db)) := by
  constructor
  · intro h
    simp [create_attendance, h]
  · intro y m d h hw
    simp only [create_attendance, h]
    rw [if_pos hw]

/-- Witness for C7: a malformed date (month 13) and a Saturday
(2025-04-05), with arbitrary other fields. -/
theorem create_attendance_date_guards_witness :
    create_attendance ⟨[], [], [], []⟩ ⟨1, "present", "2025-13-01", none, none, none⟩ "ts"
      = (.err "Invalid date format. Expected YYYY-MM-DD", ⟨[], [], [], []⟩) ∧
    create_attendance ⟨[], [], [], []⟩ ⟨2, "PL", "2025-04-05", some "x", some "09:00", none⟩ "ts"
      = (.err "Attendance cannot be marked on weekends", ⟨[], [], [], []⟩) :=
  ⟨(create_attendance_date_guards ⟨[], [], [], []⟩
      ⟨1, "present", "2025-13-01", none, none, none⟩ "ts").1 (by decide),
   (create_attendance_date_guards ⟨[], [], [], []⟩
      ⟨2, "PL", "2025-04-05", some "x", some "09:00", none⟩ "ts").2 2025 4 5
      (by decide) (by decide)⟩

/-! ### Re-submitting the same leave (C9) -/

theorem isLeave_pyLower {s : String} (h : isLeaveStatus s = true) :
    (pyLower (pyUpper s) == "pl" || pyLower (pyUpper s) == "cl"
      || pyLower (pyUpper s) == "sl") = true := by
  have h3 : pyUpper s = "PL" ∨ pyUpper s = "CL" ∨ pyUpper s = "SL" := by
    unfold isLeaveStatus at h
    rcases Bool.or_eq_true_iff.mp h with h | h
    · rcases Bool.or_eq_true_iff.mp h with h | h
      · exact Or.inl (eq_of_beq h)
      · exact Or.inr (Or.inl (eq_of_beq h))
    · exact Or.inr (Or.inr (eq_of_beq h))
  rcases h3 with h3 | h3 | h3 <;> rw [h3] <;> decide

theorem create_attendance_leave_ok (db : DB) (req : AttendanceRequest) (now : String)
    (y m d : ℕ) (r : LeaveOk) (db1 : DB)
    (hparse : parseDate req.date = some (y, m, d))
    (hwk : ¬ 5 ≤ weekday y m d)
    (hls : isLeaveStatus req.status = true)
    (happ : apply_leave db req.user_id (pyUpper req.status) req.date now = .ok (r, db1)) :
    create_attendance db req now =
      ((match add_attendance db1
          { user_id := req.user_id, status := req.status, date := req.date,
            notes := req.notes, in_time := some req.in_time,
            out_time := some req.out_time } now with
        | (some r, db2) => (ApiResp.ok r, db2)
        | (none, db2) => (ApiResp.err "internal error", db2) : ApiResp × DB)) := by
  simp only [create_attendance, hparse]
  rw [if_neg hwk, if_pos hls, happ]

/-- Claim C9: a `create_attendance` call whose status is a leave code
invokes `apply_leave` and decrements the balance by 1 even when a record
for `(user_id, date)` already exists; when the existing record's status
equals the new one no `cancel_leave` is performed first (the only new
history event is the `applied` one), so re-submitting the same leave for
the same day decrements the balance again while the record count for the
pair stays 1. -/
theorem create_attendance_resubmit (db : DB) (req : AttendanceRequest) (now : String)
    (u : User) (lb : LeaveBalances) (ex : AttendanceRecord) (y m d : ℕ)
    (hwf : attWfL db.attendance)
    (hparse : parseDate req.date = some (y, m, d))
    (hwk : ¬ 5 ≤ weekday y m d)
    (hstat : isLeaveStatus req.status = true)
    (hfindU : db.users.find? (fun v => v.id == req.user_id) = some u)
    (hlb : u.leave_balances = some lb)
    (hpos : 0 < lb.getS (pyLower (pyUpper req.status)))
    (hfindA : db.attendance.find? (fun v => v.user_id == req.user_id && v.date == req.date)
      = some ex)
    (hsame : pyUpper ex.status = pyUpper req.status) :
    ∃ db' u₁ lb₁,
      create_attendance db req now =
        (.ok (updatedRec
          { user_id := req.user_id, status := req.status, date := req.date,
            notes := req.notes, in_time := some req.in_time,
            out_time := some req.out_time } ex), db') ∧
      db'.users.find? (fun v => v.id == req.user_id) = some u₁ ∧
      u₁.leave_balances = some lb₁ ∧
      lb₁.getS (pyLower (pyUpper req.status))
        = lb.getS (pyLower (pyUpper req.status)) - 1 ∧
      u₁.leave_history = u.leave_history ++
        [⟨req.date, pyLower (pyUpper req.status), "applied", now, none, none⟩] ∧
      db'.attendance.countP (fun v => v.user_id == req.user_id && v.date == req.date) = 1 := by
  have hval := isLeave_pyLower hstat
  have hpos' : 0 < (u.leave_balances.getD defaultBalances).getS (pyLower (pyUpper req.status)) := by
    rw [hlb]
    simpa using hpos
  obtain ⟨l₁, l₂, hsplit, hfalse, happ⟩ :=
    apply_leave_ok db req.user_id (pyUpper req.status) req.date now u hfindU hval hpos'
  have hcr := create_attendance_leave_ok db req now y m d _ _ hparse hwk hstat happ
  have hwf1 : attWfL (DB.mk (l₁ ++ appliedUser (pyUpper req.status) req.date now u :: l₂)
      db.attendance db.messages db.notifications).attendance := hwf
  have hfindA1 : (DB.mk (l₁ ++ appliedUser (pyUpper req.status) req.date now u :: l₂)
      db.attendance db.messages db.notifications).attendance.find?
      (fun v => v.user_id == req.user_id && v.date == req.date) = some ex := hfindA
  obtain ⟨hres1, hcount⟩ := add_attendance_existing _
    { user_id := req.user_id, status := req.status, date := req.date,
      notes := req.notes, in_time := some req.in_time, out_time := some req.out_time }
    now ex hwf1 hfindA1
  have husers := add_attendance_same_status_users _
    { user_id := req.user_id, status := req.status, date := req.date,
      notes := req.notes, in_time := some req.in_time, out_time := some req.out_time }
    now ex hfindA1 hsame
  rcases hadd : add_attendance (DB.mk (l₁ ++ appliedUser (pyUpper req.status) req.date now u :: l₂)
      db.attendance db.messages db.notifications)
      { user_id := req.user_id, status := req.status, date := req.date,
        notes := req.notes, in_time := some req.in_time, out_time := some req.out_time }
      now with ⟨fst, snd⟩
  rw [hadd] at hres1 hcount husers hcr
  simp only at hres1 hcount husers
  subst hres1
  refine ⟨snd, appliedUser (pyUpper req.status) req.date now u,
    lb.setS (pyLower (pyUpper req.status)) (lb.getS (pyLower (pyUpper req.status)) - 1),
    ?_, ?_, ?_, ?_, ?_, ?_⟩
  · rw [hcr]
  · rw [husers]
    refine find?_append_split _ _ _ _ hfalse ?_
    simpa [appliedUser] using List.find?_some hfindU
  · simp [appliedUser, hlb]
  · exact getS_setS_self _ _ _ hval
  · simp [appliedUser]
  · exact hcount

/-- Witness for C9: user 1 re-submits PL for 2025-04-07, for which a PL
record already exists; the balance entry drops to 17 and the pair keeps a
single record. -/
theorem create_attendance_resubmit_witness :
    ∃ db' u₁ lb₁,
      create_attendance
        ⟨[⟨1, "user", "A", some defaultBalances, []⟩],
         [⟨9, 1, "2025-04-07", "PL", none, none, none⟩], [], []⟩
        ⟨1, "PL", "2025-04-07", none, none, none⟩ "ts" =
        (.ok (updatedRec ⟨1, "PL", "2025-04-07", none, some none, some none⟩
          ⟨9, 1, "2025-04-07", "PL", none, none, none⟩), db') ∧
      db'.users.find? (fun v => v.id == 1) = some u₁ ∧
      u₁.leave_balances = some lb₁ ∧
      lb₁.getS "pl" = 17 ∧
      u₁.leave_history = [⟨"2025-04-07", "pl", "applied", "ts", none, none⟩] ∧
      db'.attendance.countP (fun v => v.user_id == 1 && v.date == "2025-04-07") = 1 := by
  obtain ⟨db', u₁, lb₁, hc, hf, hlbr, hgs, hh, hcount⟩ :=
    create_attendance_resubmit
      ⟨[⟨1, "user", "A", some defaultBalances, []⟩],
       [⟨9, 1, "2025-04-07", "PL", none, none, none⟩], [], []⟩
      ⟨1, "PL", "2025-04-07", none, none, none⟩ "ts"
      ⟨1, "user", "A", some defaultBalances, []⟩ defaultBalances
      ⟨9, 1, "2025-04-07", "PL", none, none, none⟩ 2025 4 7
      (by exact ⟨by decide, by decide⟩) (by decide) (by decide) (by decide)
      (by decide) rfl (by decide) (by decide) (by decide)
  have e : pyLower (pyUpper "PL") = "pl" := by decide
  rw [e] at hgs hh
  have e2 : defaultBalances.getS "pl" - 1 = (17 : ℤ) := by decide
  rw [e2] at hgs
  exact ⟨db', u₁, lb₁, hc, hf, hlbr, hgs, by simpa using hh, hcount⟩

/-- Claim C8 (failing input): the update path is supposed to retain
`in_time`/`out_time` when they are not specified, and the fallback in
`add_attendance` (`attendance_data.get("in_time", existing.get("in_time"))`)
does retain them when the keys are absent from the dict — but
`create_attendance` always passes both keys (with value `None` when the
request leaves them unspecified), so an update through the endpoint
overwrites the stored times with `None`.  Record 1 holds
`in_time = "09:00"`, `out_time = "17:30"`; after an update with both
fields unspecified the persisted record holds `None` in both. -/
theorem update_clobbers_unspecified_times :
    (create_attendance
        ⟨[⟨1, "user", "A", some defaultBalances, []⟩],
         [⟨1, 1, "2025-04-07", "present", none, some "09:00", some "17:30"⟩], [], []⟩
        ⟨1, "present", "2025-04-07", none, none, none⟩ "ts").1
      = .ok ⟨1, 1, "2025-04-07", "present", none, none, none⟩ ∧
    ((create_attendance
        ⟨[⟨1, "user", "A", some defaultBalances, []⟩],
         [⟨1, 1, "2025-04-07", "present", none, some "09:00", some "17:30"⟩], [], []⟩
        ⟨1, "present", "2025-04-07", none, none, none⟩ "ts").2.attendance.find?
        (fun r => r.id == 1)).map (fun r => (r.in_time, r.out_time))
      = some (none, none) ∧
    (add_attendance
        ⟨[⟨1, "user", "A", some defaultBalances, []⟩],
         [⟨1, 1, "2025-04-07", "present", none, some "09:00", some "17:30"⟩], [], []⟩
        ⟨1, "present", "2025-04-07", none, none, none⟩ "ts").1
      = some ⟨1, 1, "2025-04-07", "present", none, some "09:00", some "17:30"⟩ := by
  decide

/-- Claim C5 (failing input): `MongoDBManager` defines `add_message`
twice; the later definition (the one Python keeps) inserts the message
with a fresh id but creates no notification, so
`SendMessage(sender=2, receiver=5, content="hi")` leaves the notifications
collection empty.  The shadowed first definition would have created the
claimed notification of type `"message"` referencing the new message id —
evidence that the claim describes the dead first definition. -/
theorem add_message_creates_no_notification :
    (add_message
        ⟨[⟨2, "user", "Bob", some defaultBalances, []⟩,
          ⟨5, "user", "Eve", some defaultBalances, []⟩], [], [], []⟩
        ⟨2, 5, "hi", "personal", none⟩ "T1").1
      = ⟨1, 2, 5, "hi", "personal", "T1"⟩ ∧
    (add_message
        ⟨[⟨2, "user", "Bob", some defaultBalances, []⟩,
          ⟨5, "user", "Eve", some defaultBalances, []⟩], [], [], []⟩
        ⟨2, 5, "hi", "personal", none⟩ "T1").2.messages
      = [⟨1, 2, 5, "hi", "personal", "T1"⟩] ∧
    (add_message
        ⟨[⟨2, "user", "Bob", some defaultBalances, []⟩,
          ⟨5, "user", "Eve", some defaultBalances, []⟩], [], [], []⟩
        ⟨2, 5, "hi", "personal", none⟩ "T1").2.notifications = [] ∧
    (add_message_shadowed
        ⟨[⟨2, "user", "Bob", some defaultBalances, []⟩,
          ⟨5, "user", "Eve", some defaultBalances, []⟩], [], [], []⟩
        ⟨2, 5, "hi", "personal", none⟩ "T1").2.notifications
      = [⟨1, 5, "message", "New message from Bob", some 1, some false, some "unread", "T1"⟩] := by
  decide

/-! ### Attendance statistics (C6) -/

/-- The spec scenario record set: 10 `present`, 2 `absent`, 3 `PL`. -/
def statsScenarioRecords : List AttendanceRecord :=
  (List.range 10).map (fun i => ⟨(i : ℤ), 1, "2025-04-01", "present", none, none, none⟩) ++
  [⟨10, 1, "2025-04-02", "absent", none, none, none⟩,
   ⟨11, 1, "2025-04-03", "absent", none, none, none⟩] ++
  (List.range 3).map (fun i => ⟨(12 + i : ℤ), 1, "2025-04-04", "PL", none, none, none⟩)

theorem pyRound2_zero : pyRound2 0 = 0 := by
  norm_num [pyRound2]

/-- Claim C6: over any filtered record set the stats endpoint counts every
record in `total_days`, counts exactly the records with status literally
`"present"` / `"absent"`, and returns `count/total*100` rounded to two
decimals (`0` when the set is empty); over 10 present + 2 absent + 3 PL
records it returns `total_days = 15`, `present_days = 10`,
`absent_days = 2`, `present_percentage = 66.67` (and
`absent_percentage = 13.33`). -/
theorem get_attendance_stats_spec (records : List AttendanceRecord) :
    ((get_attendance_stats records).total_days = records.length ∧
     (get_attendance_stats records).present_days
       = records.countP (fun r => r.status == "present") ∧
     (get_attendance_stats records).absent_days
       = records.countP (fun r => r.status == "absent") ∧
     (get_attendance_stats records).present_percentage
       = (if 0 < records.length then
            pyRound2 ((records.countP (fun r => r.status == "present") : ℚ)
              / (records.length : ℚ) * 100)
          else 0) ∧
     (get_attendance_stats records).absent_percentage
       = (if 0 < records.length then
            pyRound2 ((records.countP (fun r => r.status == "absent") : ℚ)
              / (records.length : ℚ) * 100)
          else 0)) ∧
    get_attendance_stats statsScenarioRecords
      = ⟨10, 2, 15, 6667 / 100, 1333 / 100⟩ := by
  constructor
  · refine ⟨rfl, ?_, ?_, ?_, ?_⟩
    · simp [get_attendance_stats, List.countP_eq_length_filter]
    · simp [get_attendance_stats, List.countP_eq_length_filter]
    · by_cases h : 0 < records.length
      · simp [get_attendance_stats, List.countP_eq_length_filter, if_pos h]
      · simp [get_attendance_stats, if_neg h, pyRound2_zero]
    · by_cases h : 0 < records.length
      · simp [get_attendance_stats, List.countP_eq_length_filter, if_pos h]
      · simp [get_attendance_stats, if_neg h, pyRound2_zero]
  · have hl : statsScenarioRecords.length = 15 := by decide
    have hp : (statsScenarioRecords.filter (fun r => r.status == "present")).length = 10 := by
      decide
    have ha : (statsScenarioRecords.filter (fun r => r.status == "absent")).length = 2 := by
      decide
    simp only [get_attendance_stats, hl, hp, ha, pyRound2]
    norm_num

end Backend
